import Mathlib

/-!
Shallow embedding of the Curiefense request-inspection core
(curiefense/curieproxy/rust/curiefense/src), restricted to the data model and
operations needed to settle the claims about ACL decision resolution,
decision merging, content-filter structural checks, request-field masking,
global-filter entry evaluation, JSON body flattening and the incremental
body accumulator.

Rust `HashMap`/`HashSet` values are modelled as association lists / lists
(insertion order standing in for the unspecified iteration order); machine
integers are modelled as `Nat` with explicit wraparound where the source can
overflow; compiled regexes are modelled as their match predicate
(`String → Bool`) together with the original pattern text.
-/

namespace Curiefense

/-- `interface::tagging::Location` (interface/tagging.rs). -/
inductive Location where
  | request
  | attributes
  | ip
  | uri
  | pathpart (p : Nat)
  | pathpartValue (p : Nat) (v : String)
  | refererPath
  | refererPathpart (p : Nat)
  | refererPathpartValue (p : Nat) (v : String)
  | uriArgument (a : String)
  | uriArgumentValue (a : String) (v : String)
  | refererArgument (a : String)
  | refererArgumentValue (a : String) (v : String)
  | body
  | bodyArgument (a : String)
  | bodyArgumentValue (a : String) (v : String)
  | headers
  | header (h : String)
  | headerValue (h : String) (v : String)
  | cookies
  | cookie (c : String)
  | cookieValue (c : String) (v : String)
  | plugins
  | plugin (p : String)
  | pluginValue (p : String) (v : String)
deriving DecidableEq, Repr

/-- `config::contentfilter::SectionIdx`. -/
inductive SectionIdx where
  | headers
  | cookies
  | args
  | path
  | plugins
deriving DecidableEq, Repr

/-- `Location::from_value` (interface/tagging.rs). -/
def Location.from_value (idx : SectionIdx) (name value : String) : Location :=
  match idx with
  | .headers => .headerValue name value
  | .cookies => .cookieValue name value
  | .path => .uri
  | .args => .uriArgumentValue name value
  | .plugins => .pluginValue name value

/-- `Location::from_name` (interface/tagging.rs). -/
def Location.from_name (idx : SectionIdx) (name : String) : Location :=
  match idx with
  | .headers => .header name
  | .cookies => .cookie name
  | .path => .uri
  | .args => .uriArgument name
  | .plugins => .plugin name

/-- `Location::from_section` (interface/tagging.rs). -/
def Location.from_section (idx : SectionIdx) : Location :=
  match idx with
  | .headers => .headers
  | .cookies => .cookies
  | .path => .uri
  | .args => .uri
  | .plugins => .plugins

/-- `interface::tagging::Tags`: map from tag name to the locations that
produced it, modelled as an association list.  The `vtags` component
(virtual-tag expansion table) is omitted: it is only consulted by the
insertion operations, which none of the embedded functions use. -/
structure Tags where
  tags : List (String × List Location)
deriving DecidableEq, Repr

/-- `Tags::contains`. -/
def Tags.contains (t : Tags) (s : String) : Bool :=
  t.tags.any (fun kv => kv.1 == s)

/-- `Tags::get`. -/
def Tags.get (t : Tags) (s : String) : Option (List Location) :=
  (t.tags.find? (fun kv => kv.1 == s)).map (fun kv => kv.2)

/-- `Tags::is_empty`. -/
def Tags.is_empty (t : Tags) : Bool :=
  t.tags.isEmpty

/-- `Tags::intersect`: keep the tags whose name belongs to `other`. -/
def Tags.intersect (t : Tags) (other : List String) : List (String × List Location) :=
  t.tags.filter (fun kv => other.contains kv.1)

/-- `Tags::intersect_tags`. -/
def Tags.intersect_tags (t : Tags) (other : List String) : Tags :=
  ⟨t.intersect other⟩

/-- `Tags::has_intersection`. -/
def Tags.has_intersection (t : Tags) (other : List String) : Bool :=
  other.any (fun s => t.contains s)

/-! ## ACL (acl.rs) -/

/-- `interface::AclStage` (interface/block_reasons.rs). -/
inductive AclStage where
  | enforceDeny
  | bypass
  | allowBot
  | denyBot
  | allow
  | deny
deriving DecidableEq, Repr

/-- `acl::AclDecisionDetails`. -/
structure AclDecisionDetails where
  stage : AclStage
  tags : Tags
  challenge : Bool
deriving DecidableEq, Repr

/-- `acl::AclResult`.  `matchres` is the `Match { bot, human }` variant. -/
inductive AclResult where
  | passthrough (pr : Bool × Tags)
  | matchres (bot : Option (Bool × Tags)) (human : Option (Bool × Tags))
deriving DecidableEq, Repr

/-- `AclProfile` (config/raw.rs), restricted to the six tag sets consulted by
`check_acl` (the `action` and `tags` fields are never read by it). -/
structure AclProfile where
  id : String
  name : String
  allow : List String
  allow_bot : List String
  deny : List String
  deny_bot : List String
  passthrough : List String
  force_deny : List String
deriving Repr

/-- The `subcheck` closure inside `check_acl` (acl.rs). -/
def subcheck (tags : Tags) (checks : List String) (allowed : Bool) : Option (Bool × Tags) :=
  let t := tags.intersect_tags checks
  if t.is_empty then none else some (allowed, t)

/-- `check_acl` (acl.rs). -/
def check_acl (tags : Tags) (acl : AclProfile) : AclResult :=
  match subcheck tags acl.force_deny false with
  | some pr => .passthrough pr
  | none =>
    match subcheck tags acl.passthrough true with
    | some pr => .passthrough pr
    | none =>
      let botresult := (subcheck tags acl.allow_bot true).orElse
        (fun _ => subcheck tags acl.deny_bot false)
      let humanresult := (subcheck tags acl.allow true).orElse
        (fun _ => subcheck tags acl.deny false)
      .matchres botresult humanresult

/-- `AclResult::decision` (acl.rs); the match arms are translated in source
order, pattern guards `if !is_human` becoming a `false` pattern on the
`is_human` argument. -/
def AclResult.decision (r : AclResult) (is_human : Bool) : Option AclDecisionDetails :=
  match r, is_human with
  | .passthrough (allowed, tags), _ =>
    some ⟨if allowed then .bypass else .enforceDeny, tags, false⟩
  | .matchres none none, _ => none
  | .matchres (some (true, _)) (some (false, tags)), _ =>
    some ⟨.deny, tags, false⟩
  | .matchres (some (true, tags)) _, _ =>
    some ⟨.allowBot, tags, false⟩
  | .matchres (some (false, tags)) (some (false, _)), false =>
    some ⟨.denyBot, tags, false⟩
  | .matchres (some (false, tags)) _, false =>
    some ⟨.denyBot, tags, true⟩
  | .matchres _ (some (allowed, tags)), _ =>
    some ⟨if allowed then .allow else .deny, tags, false⟩
  | _, _ => none

/-! ## Decisions and block reasons (interface/mod.rs, interface/block_reasons.rs) -/

/-- `config::raw::RawActionType`. -/
inductive RawActionType where
  | skip
  | monitor
  | custom
  | challenge
  | ichallenge
deriving DecidableEq, Repr

/-- `RawActionType::is_final`. -/
def RawActionType.is_final (a : RawActionType) : Bool :=
  a != .monitor

/-- `grasshopper::GHMode`. -/
inductive GHMode where
  | passive
  | active
  | interactive
deriving DecidableEq, Repr

/-- A fragment of `serde_json::Value`, used for the `extra` field of
`BlockReason` (always `Value::Null` in the embedded constructors) and for
the JSON body parser.  Objects are modelled as association lists in key
order (serde_json's default map is an ordered `BTreeMap`); numbers as `Int`. -/
inductive JValue where
  | null
  | bool (b : Bool)
  | num (n : Int)
  | str (s : String)
  | arr (vs : List JValue)
  | obj (kvs : List (String × JValue))

/-- `interface::block_reasons::Initiator`. -/
inductive Initiator where
  | globalFilter
  | acl (tags : List String) (stage : AclStage)
  | contentFilter (ruleid : String) (risk_level : Nat)
  | limit (threshold : Nat)
  | restriction (tpe : String) (actual : String) (expected : String)
  | phase01Fail (r : String)
  | phase02
deriving DecidableEq, Repr

/-- `interface::block_reasons::BlockReason`. -/
structure BlockReason where
  id : String
  name : String
  initiator : Initiator
  location : Location
  extra_locations : List Location
  action : RawActionType
  extra : JValue

/-- `BlockReason::too_many_entries` (interface/block_reasons.rs). -/
def BlockReason.too_many_entries (id name : String) (action : RawActionType)
    (idx : SectionIdx) (actual expected : Nat) : BlockReason :=
  { id := id
    name := name
    initiator := .restriction "too many" (toString actual) (toString expected)
    location := Location.from_section idx
    action := action
    extra_locations := []
    extra := .null }

/-- `BlockReason::entry_too_large` (interface/block_reasons.rs). -/
def BlockReason.entry_too_large (id cf_name : String) (action : RawActionType)
    (idx : SectionIdx) (name : String) (actual expected : Nat) : BlockReason :=
  { id := id
    name := cf_name
    initiator := .restriction "too large" (toString actual) (toString expected)
    location := Location.from_name idx name
    action := action
    extra_locations := []
    extra := .null }

/-- `BlockReason::restricted` (interface/block_reasons.rs). -/
def BlockReason.restricted (id name : String) (action : RawActionType)
    (location : Location) (actual expected : String) : BlockReason :=
  { id := id
    name := name
    initiator := .restriction "restricted" actual expected
    location := location
    action := action
    extra_locations := []
    extra := .null }

/-- `BlockReason::body_too_large` (interface/block_reasons.rs). -/
def BlockReason.body_too_large (id name : String) (action : RawActionType)
    (actual expected : Nat) : BlockReason :=
  { id := id
    name := name
    initiator := .restriction "too large" (toString actual) (toString expected)
    location := .body
    action := action
    extra_locations := []
    extra := .null }

/-- The `tpe` component of a `Restriction` initiator, used to classify the
block reasons produced by the structural checks. -/
def BlockReason.restrictionType (r : BlockReason) : Option String :=
  match r.initiator with
  | .restriction tpe _ _ => some tpe
  | _ => none

/-- `interface::ActionType` (interface/mod.rs). -/
inductive ActionType where
  | skip
  | monitor
  | block
deriving DecidableEq, Repr

/-- `ActionType::priority` (interface/mod.rs). -/
def ActionType.priority (a : ActionType) : Nat :=
  match a with
  | .block => 6
  | .monitor => 1
  | .skip => 9

/-- `interface::Action` (interface/mod.rs); the `headers` map is modelled as
an association list. -/
structure Action where
  atype : ActionType
  block_mode : Bool
  status : Nat
  headers : Option (List (String × String))
  content : String
  extra_tags : Option (List String)
deriving DecidableEq, Repr

/-- `Action::default()` (interface/mod.rs). -/
def Action.default : Action :=
  { atype := .block
    block_mode := true
    status := 503
    headers := none
    content := "request denied"
    extra_tags := none }

/-- `interface::Decision` (interface/mod.rs). -/
structure Decision where
  maction : Option Action
  reasons : List BlockReason

/-- `HashMap::extend` on the string-to-string header maps: every key of
`other` ends up bound to `other`'s value, the remaining keys keep `base`'s
value. -/
def mapExtend (base other : List (String × String)) : List (String × String) :=
  base.filter (fun kv => other.all (fun kv2 => kv2.1 != kv.1)) ++ other

/-- `merge_decisions` (interface/mod.rs lines 44-76). -/
def merge_decisions (d1 d2 : Decision) : Decision :=
  let kt : Decision × Decision :=
    match d1.maction, d2.maction with
    | some a1, some a2 =>
      if a2.atype.priority ≤ a1.atype.priority then (d1, d2) else (d2, d1)
    | none, some _ => (d2, d1)
    | _, _ => (d1, d2)
  let kept := kt.1
  let thrown := kt.2
  let kept2 :=
    match kept.maction with
    | some action =>
      if action.atype == ActionType.monitor then
        let throw_headers := thrown.maction.bind (fun a => a.headers)
        let newHeaders :=
          match action.headers with
          | some hs => some (mapExtend hs (throw_headers.getD []))
          | none => throw_headers
        { kept with maction := some { action with headers := newHeaders } }
      else kept
    | none => kept
  { kept2 with reasons := kept2.reasons ++ thrown.reasons }

/-- `interface::SimpleActionT` (interface/mod.rs). -/
inductive SimpleActionT where
  | skip
  | monitor
  | custom (content : String)
  | challenge (ch_level : GHMode)
deriving DecidableEq, Repr

/-- `SimpleActionT::priority` (interface/mod.rs lines 632-640). -/
def SimpleActionT.priority (a : SimpleActionT) : Nat :=
  match a with
  | .custom _ => 8
  | .challenge _ => 6
  | .monitor => 1
  | .skip => 9

/-- `SimpleActionT::to_raw` (interface/mod.rs). -/
def SimpleActionT.to_raw (a : SimpleActionT) : RawActionType :=
  match a with
  | .skip => .skip
  | .monitor => .monitor
  | .custom _ => .custom
  | .challenge ch_level => if ch_level == GHMode.active then .challenge else .ichallenge

/-- `interface::SimpleAction` (interface/mod.rs); header templates are
modelled as plain strings. -/
structure SimpleAction where
  atype : SimpleActionT
  headers : Option (List (String × String))
  status : Nat
  extra_tags : Option (List String)
deriving DecidableEq, Repr

/-! ## Content filter structural checks (contentfilter.rs, config/contentfilter.rs) -/

/-- A compiled regex (`config::matchers::Matching<String>`): the match
predicate of the compiled regex together with the original pattern text
(`inner`). -/
structure Matching where
  matchesFn : String → Bool
  inner : String

/-- `config::contentfilter::ContentFilterEntryMatch`. -/
structure ContentFilterEntryMatch where
  reg : Option Matching
  restrict : Bool
  mask : Bool
  exclusions : List String

/-- A compiled name regex from the `regex` list of a section
(`regex::Regex`), modelled as its match predicate. -/
structure NameRegex where
  is_match : String → Bool

/-- `config::contentfilter::ContentFilterSection`. -/
structure ContentFilterSection where
  max_count : Nat
  max_length : Nat
  names : List (String × ContentFilterEntryMatch)
  regex : List (NameRegex × ContentFilterEntryMatch)

/-- `config::contentfilter::Section<A>`. -/
structure Section' (A : Type) where
  headers : A
  cookies : A
  args : A
  path : A
  plugins : A
deriving DecidableEq, Repr

/-- `Section::at` (read access). -/
def Section'.at {A : Type} (s : Section' A) (idx : SectionIdx) : A :=
  match idx with
  | .headers => s.headers
  | .cookies => s.cookies
  | .args => s.args
  | .path => s.path
  | .plugins => s.plugins

/-- Functional update of the component selected by `Section::at`. -/
def Section'.setAt {A : Type} (s : Section' A) (idx : SectionIdx) (a : A) : Section' A :=
  match idx with
  | .headers => { s with headers := a }
  | .cookies => { s with cookies := a }
  | .args => { s with args := a }
  | .path => { s with path := a }
  | .plugins => { s with plugins := a }

/-- `contentfilter::Omitted`: the per-section sets of omitted entry names and
per-entry exclusion tags, modelled with lists. -/
structure Omitted where
  entries : Section' (List String)
  exclusions : Section' (List (String × List String))
deriving DecidableEq, Repr

/-- Empty `Omitted` (its `Default`). -/
def Omitted.default : Omitted :=
  ⟨⟨[], [], [], [], []⟩, ⟨[], [], [], [], []⟩⟩

/-- `omit.entries.at(idx).insert(name)` (set insertion). -/
def Omitted.insertEntry (o : Omitted) (idx : SectionIdx) (name : String) : Omitted :=
  let cur := o.entries.at idx
  let cur2 := if cur.contains name then cur else cur ++ [name]
  { o with entries := o.entries.setAt idx cur2 }

/-- `omit.exclusions.at(idx).entry(name).or_default().extend(tags)`:
set-union `tags` into the entry for `name`. -/
def Omitted.extendExclusions (o : Omitted) (idx : SectionIdx) (name : String)
    (tags : List String) : Omitted :=
  let cur := o.exclusions.at idx
  let old := ((cur.find? (fun kv => kv.1 == name)).map (fun kv => kv.2)).getD []
  let merged := old ++ tags.filter (fun t => !old.contains t)
  let cur2 :=
    if cur.any (fun kv => kv.1 == name) then
      cur.map (fun kv => if kv.1 == name then (kv.1, merged) else kv)
    else cur ++ [(name, merged)]
  { o with exclusions := o.exclusions.setAt idx cur2 }

/-- Rust `str::ends_with`. -/
def strEndsWith (s suf : String) : Bool :=
  s.data.reverse.take suf.data.length == suf.data.reverse

/-- Rust `char::is_ascii_alphanumeric`. -/
def isAsciiAlphanum (c : Char) : Bool :=
  (('a' ≤ c && c ≤ 'z') || ('A' ≤ c && c ≤ 'Z') || ('0' ≤ c && c ≤ '9'))

/-- The `check_entry` closure inside `section_check` (contentfilter.rs lines
246-269): checks one value against one section entry, either failing with a
`restricted` block reason or recording omissions/exclusions. -/
def cfCheckEntry (cfid cfname : String) (action : RawActionType) (tags : Tags)
    (idx : SectionIdx) (name value : String) (om : Omitted)
    (name_entry : ContentFilterEntryMatch) : Except BlockReason Omitted :=
  let mr : Bool × Option String :=
    match name_entry.reg with
    | some re => (re.matchesFn value, some re.inner)
    | none => (false, none)
  let matched := mr.1
  let mre := mr.2
  if matched then
    .ok (om.insertEntry idx name)
  else if name_entry.restrict then
    .error (BlockReason.restricted cfid cfname action
      (Location.from_value idx name value) value (mre.getD ""))
  else if tags.has_intersection name_entry.exclusions then
    .ok (om.insertEntry idx name)
  else if !name_entry.exclusions.isEmpty then
    .ok (om.extendExclusions idx name name_entry.exclusions)
  else
    .ok om

/-- The regex-rule loop at the end of the per-value body of `section_check`:
apply `check_entry` for every regex rule whose name regex matches `name`,
stopping at the first error. -/
def cfCheckRegexRules (cfid cfname : String) (action : RawActionType) (tags : Tags)
    (idx : SectionIdx) (name value : String) (om : Omitted) :
    List (NameRegex × ContentFilterEntryMatch) → Except BlockReason Omitted
  | [] => .ok om
  | (re, v) :: rest =>
    if re.is_match name then
      match cfCheckEntry cfid cfname action tags idx name value om v with
      | .error r => .error r
      | .ok omit2 => cfCheckRegexRules cfid cfname action tags idx name value omit2 rest
    else
      cfCheckRegexRules cfid cfname action tags idx name value om rest

/-- The per-field loop of `section_check` (contentfilter.rs lines 221-287):
max-length check (skipping `:decoded` entries), `ignore_alphanum` shortcut,
then name rules (exact match wins, regex rules otherwise). -/
def cfCheckFields (cfid cfname : String) (action : RawActionType) (tags : Tags)
    (idx : SectionIdx) (sec : ContentFilterSection) (ignore_alphanum : Bool)
    (om : Omitted) : List (String × String) → Except BlockReason Omitted
  | [] => .ok om
  | (name, value) :: rest =>
    if !strEndsWith name ":decoded" && value.utf8ByteSize > sec.max_length
        && sec.max_length > 0 then
      .error (BlockReason.entry_too_large cfid cfname action idx name
        value.utf8ByteSize sec.max_length)
    else if ignore_alphanum && value.data.all isAsciiAlphanum then
      cfCheckFields cfid cfname action tags idx sec ignore_alphanum
        (om.insertEntry idx name) rest
    else
      match sec.names.find? (fun kv => kv.1 == name) with
      | some entry =>
        match cfCheckEntry cfid cfname action tags idx name value om entry.2 with
        | .error r => .error r
        | .ok omit2 => cfCheckFields cfid cfname action tags idx sec ignore_alphanum omit2 rest
      | none =>
        match cfCheckRegexRules cfid cfname action tags idx name value om sec.regex with
        | .error r => .error r
        | .ok omit2 => cfCheckFields cfid cfname action tags idx sec ignore_alphanum omit2 rest

/-- `section_check` (contentfilter.rs lines 193-288), on the list of
`(name, value)` pairs of the section's `RequestField`.  The source mutates
`omit` and returns `Result<(), BlockReason>`; the embedding returns the
updated `Omitted` on success.  A `max_count` of 0 (and a `max_length` of 0
in the field loop) disables the corresponding check: the source only logs a
warning in that case. -/
def section_check (cfid cfname : String) (action : RawActionType) (tags : Tags)
    (idx : SectionIdx) (sec : ContentFilterSection)
    (params : List (String × String)) (ignore_alphanum : Bool)
    (om : Omitted) : Except BlockReason Omitted :=
  if idx != SectionIdx.path && params.length > sec.max_count
      && sec.max_count > 0 then
    .error (BlockReason.too_many_entries cfid cfname action idx
      params.length sec.max_count)
  else
    cfCheckFields cfid cfname action tags idx sec ignore_alphanum om params

/-! ## Request fields (requestfields.rs) -/

/-- `config::contentfilter::Transformation`. -/
inductive Transformation where
  | base64Decode
  | htmlEntitiesDecode
  | unicodeDecode
  | urlDecode
deriving DecidableEq, Repr

/-- `requestfields::RequestField`: the decode-transformation list together
with the map from field key to (concatenated value, originating locations),
modelled as an association list with distinct keys. -/
structure RequestField where
  decoding : List Transformation
  fields : List (String × (String × List Location))
deriving DecidableEq, Repr

/-- `RequestField::new`. -/
def RequestField.new (decoding : List Transformation) : RequestField :=
  ⟨decoding, []⟩

/-- `RequestField::get` (the value part). -/
def RequestField.get (rf : RequestField) (k : String) : Option String :=
  (rf.fields.find? (fun kv => kv.1 == k)).map (fun kv => kv.2.1)

/-- `RequestField::len`. -/
def RequestField.len (rf : RequestField) : Nat :=
  rf.fields.length

/-- `RequestField::iter`: the `(key, value)` pairs. -/
def RequestField.iterPairs (rf : RequestField) : List (String × String) :=
  rf.fields.map (fun kv => (kv.1, kv.2.1))

/-- `RequestField::base_add` (requestfields.rs): concatenate with a space
separator on key collision and union the locations, otherwise insert. -/
def RequestField.base_add (rf : RequestField) (key : String) (ds : Location)
    (value : String) : RequestField :=
  if rf.fields.any (fun kv => kv.1 == key) then
    { rf with fields := rf.fields.map (fun kv =>
        if kv.1 == key then
          (kv.1, (kv.2.1 ++ " " ++ value,
            if kv.2.2.contains ds then kv.2.2 else kv.2.2 ++ [ds]))
        else kv) }
  else
    { rf with fields := rf.fields ++ [(key, (value, [ds]))] }

/-! ## Global filter evaluation (tagging.rs, config/globalfilter.rs) -/

/-- Rust `IpAddr`, abstracted to its 32-bit or 128-bit value. -/
inductive IpAddr where
  | v4 (a : Nat)
  | v6 (a : Nat)
deriving DecidableEq, Repr

/-- An `IpNet` (used by `GlobalFilterEntryE::Network`), modelled by its
membership predicate. -/
structure IpNet where
  containsIp : IpAddr → Bool

/-- An `Ipv4Net` (`GlobalFilterEntryE::Range4`), modelled by its membership
predicate over the 32-bit address value. -/
structure IpNet4 where
  contains4 : Nat → Bool

/-- An `Ipv6Net` (`GlobalFilterEntryE::Range6`). -/
structure IpNet6 where
  contains6 : Nat → Bool

/-- `config::globalfilter::SingleEntry`: exact string and optional regex. -/
structure SingleEntry where
  exact : String
  re : Option NameRegex

/-- `config::globalfilter::PairEntry`. -/
structure PairEntry where
  key : String
  exact : String
  re : Option NameRegex

/-- `config::globalfilter::GlobalFilterEntryE` (the typed predicates). -/
inductive GlobalFilterEntryE where
  | always (b : Bool)
  | ip (addr : IpAddr)
  | network (net : IpNet)
  | range4 (net4 : IpNet4)
  | range6 (net6 : IpNet6)
  | path (pth : SingleEntry)
  | query (qry : SingleEntry)
  | uri (u : SingleEntry)
  | country (cty : SingleEntry)
  | region (r : SingleEntry)
  | subregion (r : SingleEntry)
  | method (mtd : SingleEntry)
  | header (hdr : PairEntry)
  | pluginsE (arg : PairEntry)
  | args (arg : PairEntry)
  | cookies (arg : PairEntry)
  | asn (a : Nat)
  | company (cmp : SingleEntry)
  | authority (auth : SingleEntry)
  | tag (tg : SingleEntry)
  | securityPolicyId (id : String)
  | securityPolicyEntryId (id : String)

/-- `config::globalfilter::GlobalFilterEntry`. -/
structure GlobalFilterEntry where
  negated : Bool
  entry : GlobalFilterEntryE

/-- The subset of `utils::GeoIp` consulted by `check_entry`. -/
structure GeoIp where
  ip : Option IpAddr
  country_name : Option String
  region : Option String
  subregion : Option String
  asn : Option Nat
  company : Option String
deriving Repr

/-- The subset of `utils::QueryInfo` consulted by `check_entry`. -/
structure QueryInfo where
  qpath : String
  query : Option String
  uri : String
  args : RequestField
deriving Repr

/-- The security-policy ids consulted by `check_entry`
(`secpolicy.policy.id` and `secpolicy.entry.id`). -/
structure SecPolicyIds where
  policy_id : String
  entry_id : String
deriving DecidableEq, Repr

/-- `utils::RequestMeta`, restricted to the `method` field consulted by
`check_entry`. -/
structure RequestMeta where
  method : String
deriving DecidableEq, Repr

/-- The subset of `utils::RInfo` consulted by `check_entry`. -/
structure RInfo where
  meta : RequestMeta
  geoip : GeoIp
  qinfo : QueryInfo
  host : String
  secpolicy : SecPolicyIds
deriving Repr

/-- The subset of `utils::RequestInfo` consulted by `check_entry`. -/
structure RequestInfo where
  cookies : RequestField
  headers : RequestField
  rinfo : RInfo
  plugins : RequestField
deriving Repr

/-- `tagging::MatchResult`. -/
structure MatchResult where
  matched : List Location
  matching : Bool
deriving DecidableEq, Repr

/-- `tagging::check_pair`. -/
def check_pair (pr : PairEntry) (s : RequestField) (locf : String → Location) :
    Option (List Location) :=
  (s.get pr.key).bind (fun v =>
    if pr.exact == v || ((pr.re.map (fun re => re.is_match v)).getD false) then
      some [locf v]
    else none)

/-- `tagging::check_single`. -/
def check_single (pr : SingleEntry) (s : String) (loc : Location) :
    Option (List Location) :=
  if pr.exact == s || ((pr.re.map (fun re => re.is_match s)).getD false) then
    some [loc]
  else none

/-- The `bool` helper inside `tagging::check_entry`. -/
def entryBool (loc : Location) (b : Bool) : Option (List Location) :=
  if b then some [loc] else none

/-- The `mbool` helper inside `tagging::check_entry`. -/
def entryMbool (loc : Location) (mb : Option Bool) : Option (List Location) :=
  entryBool loc (mb.getD false)

/-- The underlying (pre-negation) predicate evaluation of
`tagging::check_entry`: the big `match` on `sub.entry` producing
`Option<HashSet<Location>>`. -/
def check_entry_raw (rinfo : RequestInfo) (tags : Tags) (sub : GlobalFilterEntry) :
    Option (List Location) :=
  match sub.entry with
  | .always false => none
  | .always true => some [.request]
  | .ip addr => entryMbool .ip (rinfo.rinfo.geoip.ip.map (fun i => i == addr))
  | .network net => entryMbool .ip (rinfo.rinfo.geoip.ip.map (fun i => net.containsIp i))
  | .range4 net4 =>
    entryBool .ip
      (match rinfo.rinfo.geoip.ip with
       | some (.v4 ip4) => net4.contains4 ip4
       | _ => false)
  | .range6 net6 =>
    entryBool .ip
      (match rinfo.rinfo.geoip.ip with
       | some (.v6 ip6) => net6.contains6 ip6
       | _ => false)
  | .path pth => check_single pth rinfo.rinfo.qinfo.qpath .uri
  | .query qry => rinfo.rinfo.qinfo.query.bind (fun q => check_single qry q .uri)
  | .uri u => check_single u rinfo.rinfo.qinfo.uri .uri
  | .country cty =>
    rinfo.rinfo.geoip.country_name.bind (fun c => check_single cty c.toLower .ip)
  | .region r => rinfo.rinfo.geoip.region.bind (fun c => check_single r c.toLower .ip)
  | .subregion r => rinfo.rinfo.geoip.subregion.bind (fun c => check_single r c.toLower .ip)
  | .method mtd => check_single mtd rinfo.rinfo.meta.method .request
  | .header hdr => check_pair hdr rinfo.headers (fun h => .headerValue hdr.key h)
  | .pluginsE arg => check_pair arg rinfo.plugins (fun a => .pluginValue arg.key a)
  | .args arg => check_pair arg rinfo.rinfo.qinfo.args (fun a => .uriArgumentValue arg.key a)
  | .cookies arg => check_pair arg rinfo.cookies (fun c => .cookieValue arg.key c)
  | .asn a => entryMbool .ip (rinfo.rinfo.geoip.asn.map (fun casn => casn == a))
  | .company cmp => rinfo.rinfo.geoip.company.bind (fun c => check_single cmp c .ip)
  | .authority auth => check_single auth rinfo.rinfo.host .request
  | .tag tg => tags.get tg.exact
  | .securityPolicyId id => if rinfo.rinfo.secpolicy.policy_id == id then some [.request] else none
  | .securityPolicyEntryId id => if rinfo.rinfo.secpolicy.entry_id == id then some [.request] else none

/-- `tagging::check_entry` (tagging.rs lines 77-180): predicate evaluation
followed by negation handling. -/
def check_entry (rinfo : RequestInfo) (tags : Tags) (sub : GlobalFilterEntry) :
    MatchResult :=
  match check_entry_raw rinfo tags sub with
  | some matched => ⟨matched, !sub.negated⟩
  | none => ⟨[], sub.negated⟩

/-! ## Incremental body accumulation (incremental.rs) -/

/-- The subset of `config::contentfilter::ContentFilterProfile` consulted by
`add_body` and `body_too_large`. -/
structure ContentFilterProfile where
  id : String
  name : String
  ignore_body : Bool
  max_body_size : Nat
  action : SimpleAction
deriving DecidableEq, Repr

/-- The subset of `config::hostmap::SecurityPolicy` consulted by
`add_body`. -/
structure SecurityPolicy where
  content_filter_profile : ContentFilterProfile
  content_filter_active : Bool
deriving DecidableEq, Repr

/-- The subset of `incremental::IData` consulted or modified by `add_body`
(`start`, `logs`, `meta`, `stats`, ... are read only by other stages and
carried through unchanged there). -/
structure IData where
  headers : List (String × String)
  secpol : SecurityPolicy
  body : Option (List Nat)
deriving DecidableEq, Repr

/-- `incremental::body_too_large`. -/
def body_too_large (profile : ContentFilterProfile) (actual expected : Nat) :
    Action × BlockReason :=
  ({ atype := .block
     block_mode := true
     status := 403
     headers := none
     content := "Access denied"
     extra_tags := none },
   BlockReason.body_too_large profile.id profile.name profile.action.atype.to_raw
     actual expected)

/-- `incremental::add_body` (incremental.rs lines 244-265).  The source
wraps the blocking action and reason into a terminal `AnalyzeResult` via
`early_block`; the embedding returns the `(Action, BlockReason)` pair
produced by `body_too_large` as the error value. -/
def add_body (idata : IData) (new_body : List Nat) :
    Except (Action × BlockReason) IData :=
  if idata.secpol.content_filter_profile.ignore_body then
    .ok idata
  else
    let cur_body_size := (idata.body.map (fun v => v.length)).getD 0
    let new_size := cur_body_size + new_body.length
    let max_size := idata.secpol.content_filter_profile.max_body_size
    if idata.secpol.content_filter_active && new_size > max_size then
      .error (body_too_large idata.secpol.content_filter_profile new_size max_size)
    else
      match idata.body with
      | none => .ok { idata with body := some new_body }
      | some b => .ok { idata with body := some (b ++ new_body) }

/-! ## Decoders (utils/decoders.rs)

These are needed because `RequestField::add` runs the configured decode
transformations on every inserted value.  Bytes are modelled as `Nat`
(< 256). -/

/-- `utils::decoders::DecodingResult`. -/
inductive DecodingResult (α : Type) where
  | noChange
  | changed (v : α)
deriving DecidableEq, Repr

/-- `from_hex_digit` (on a byte). -/
def from_hex_digit (digit : Nat) : Option Nat :=
  if 48 ≤ digit && digit ≤ 57 then some (digit - 48)
  else if 65 ≤ digit && digit ≤ 70 then some (digit - 65 + 10)
  else if 97 ≤ digit && digit ≤ 102 then some (digit - 97 + 10)
  else none

/-- `is_hex_char`. -/
def is_hex_char (c : Char) : Bool :=
  (('0' ≤ c && c ≤ '9') || ('A' ≤ c && c ≤ 'F') || ('a' ≤ c && c ≤ 'f'))

/-- Rust UTF-8 encoding of a character (`str::as_bytes` per char). -/
def utf8EncodeChar (c : Char) : List Nat :=
  let n := c.toNat
  if n < 128 then [n]
  else if n < 2048 then [192 + n / 64, 128 + n % 64]
  else if n < 65536 then [224 + n / 4096, 128 + n / 64 % 64, 128 + n % 64]
  else [240 + n / 262144, 128 + n / 4096 % 64, 128 + n / 64 % 64, 128 + n % 64]

/-- Rust `str::as_bytes`: the UTF-8 bytes of a string. -/
def utf8Encode (s : String) : List Nat :=
  (s.data.map utf8EncodeChar).flatten

/-- Is `b` a UTF-8 continuation byte. -/
def isUtf8Cont (b : Nat) : Bool :=
  128 ≤ b && b < 192

/-- Strict UTF-8 decoding (`String::from_utf8`), rejecting overlong forms,
surrogates and out-of-range code points like Rust does. -/
def utf8DecodeGo : List Nat → Option (List Char)
  | [] => some []
  | b :: rest =>
    if b < 128 then
      (utf8DecodeGo rest).map (fun cs => Char.ofNat b :: cs)
    else if b < 194 then none
    else if b < 224 then
      match rest with
      | b2 :: rest2 =>
        if isUtf8Cont b2 then
          (utf8DecodeGo rest2).map (fun cs => Char.ofNat ((b - 192) * 64 + (b2 - 128)) :: cs)
        else none
      | [] => none
    else if b < 240 then
      match rest with
      | b2 :: b3 :: rest3 =>
        if isUtf8Cont b2 && isUtf8Cont b3 then
          let n := (b - 224) * 4096 + (b2 - 128) * 64 + (b3 - 128)
          if 2048 ≤ n && (n < 55296 || 57343 < n) then
            (utf8DecodeGo rest3).map (fun cs => Char.ofNat n :: cs)
          else none
        else none
      | _ => none
    else if b < 245 then
      match rest with
      | b2 :: b3 :: b4 :: rest4 =>
        if isUtf8Cont b2 && isUtf8Cont b3 && isUtf8Cont b4 then
          let n := (b - 240) * 262144 + (b2 - 128) * 4096 + (b3 - 128) * 64 + (b4 - 128)
          if 65536 ≤ n && n ≤ 1114111 then
            (utf8DecodeGo rest4).map (fun cs => Char.ofNat n :: cs)
          else none
        else none
      | _ => none
    else none

/-- `String::from_utf8`. -/
def utf8DecodeStrict (bs : List Nat) : Option String :=
  (utf8DecodeGo bs).map (fun cs => String.mk cs)

/-- Lossy UTF-8 decoding (`String::from_utf8_lossy`): invalid sequences
become U+FFFD (modelled by replacing one invalid byte at a time).  The
first argument is recursion fuel, instantiated with the byte count (each
step consumes at least one byte). -/
def utf8DecodeLossyGo : Nat → List Nat → List Char
  | 0, _ => []
  | _, [] => []
  | fuel + 1, b :: rest =>
    if b < 128 then Char.ofNat b :: utf8DecodeLossyGo fuel rest
    else if b < 194 then Char.ofNat 65533 :: utf8DecodeLossyGo fuel rest
    else if b < 224 then
      match rest with
      | b2 :: rest2 =>
        if isUtf8Cont b2 then
          Char.ofNat ((b - 192) * 64 + (b2 - 128)) :: utf8DecodeLossyGo fuel rest2
        else Char.ofNat 65533 :: utf8DecodeLossyGo fuel rest
      | [] => [Char.ofNat 65533]
    else if b < 240 then
      match rest with
      | b2 :: b3 :: rest3 =>
        if isUtf8Cont b2 && isUtf8Cont b3 then
          let n := (b - 224) * 4096 + (b2 - 128) * 64 + (b3 - 128)
          if 2048 ≤ n && (n < 55296 || 57343 < n) then
            Char.ofNat n :: utf8DecodeLossyGo fuel rest3
          else Char.ofNat 65533 :: utf8DecodeLossyGo fuel rest
        else Char.ofNat 65533 :: utf8DecodeLossyGo fuel rest
      | _ => Char.ofNat 65533 :: utf8DecodeLossyGo fuel rest
    else if b < 245 then
      match rest with
      | b2 :: b3 :: b4 :: rest4 =>
        if isUtf8Cont b2 && isUtf8Cont b3 && isUtf8Cont b4 then
          let n := (b - 240) * 262144 + (b2 - 128) * 4096 + (b3 - 128) * 64 + (b4 - 128)
          if 65536 ≤ n && n ≤ 1114111 then
            Char.ofNat n :: utf8DecodeLossyGo fuel rest4
          else Char.ofNat 65533 :: utf8DecodeLossyGo fuel rest
        else Char.ofNat 65533 :: utf8DecodeLossyGo fuel rest
      | _ => Char.ofNat 65533 :: utf8DecodeLossyGo fuel rest
    else Char.ofNat 65533 :: utf8DecodeLossyGo fuel rest

/-- `String::from_utf8_lossy(..).into_owned()`. -/
def utf8DecodeLossy (bs : List Nat) : String :=
  String.mk (utf8DecodeLossyGo bs.length bs)

/-- The byte loop of `urldecode_bytes` (decoders.rs): `+` becomes a space,
`%hh` becomes the decoded byte, incomplete escapes are copied verbatim with
the following byte re-examined, exactly as the source's inner `loop` with
its `b` reassignments. -/
def urldecodeGo : List Nat → List Nat → Bool → (List Nat × Bool)
  | [], out, changed => (out, changed)
  | b :: rest, out, changed =>
    if b == 43 then urldecodeGo rest (out ++ [32]) true
    else if b == 37 then
      match rest with
      | [] => (out ++ [b], changed)
      | h :: rest2 =>
        match from_hex_digit h with
        | none => urldecodeGo (h :: rest2) (out ++ [b]) changed
        | some hv =>
          match rest2 with
          | [] => (out ++ [b, h], changed)
          | l :: rest3 =>
            match from_hex_digit l with
            | some lv => urldecodeGo rest3 (out ++ [hv * 16 + lv]) true
            | none => urldecodeGo (l :: rest3) (out ++ [b, h]) changed
    else urldecodeGo rest (out ++ [b]) changed

/-- `urldecode_bytes` (decoders.rs).  The source first scans for the first
`+`/`%` and copies the prefix verbatim; running the loop from the start is
equivalent (non-special bytes are copied and do not set `changed`), and
`NoChange` is returned exactly when no byte was rewritten. -/
def urldecode_bytes (input : List Nat) : DecodingResult (List Nat) :=
  let r := urldecodeGo input [] false
  if r.2 then .changed r.1 else .noChange

/-- `urldecode_str` (decoders.rs). -/
def urldecode_str (input : String) : DecodingResult String :=
  match urldecode_bytes (utf8Encode input) with
  | .noChange => .noChange
  | .changed r => .changed (utf8DecodeLossy r)

/-- The character loop of `base64dec_all` (decoders.rs); state is
`(i, v, res, pad)`. -/
def base64Go : List Char → Nat → Nat → List Nat → Nat →
    Except String (List Nat × Nat × Nat × Nat)
  | [], i, v, res, pad => .ok (res, i, v, pad)
  | c :: cs, i, v, res, pad =>
    let nE : Except String (Nat × Nat) :=
      if '0' ≤ c && c ≤ '9' then .ok (52 + c.toNat - 48, pad)
      else if 'A' ≤ c && c ≤ 'Z' then .ok (c.toNat - 65, pad)
      else if 'a' ≤ c && c ≤ 'z' then .ok (26 + c.toNat - 97, pad)
      else if c == '+' || c == '-' then .ok (62, pad)
      else if c == '/' || c == '_' then .ok (63, pad)
      else if c == '=' then
        if pad ≥ 2 || i ≥ 3 then .error "bad padding" else .ok (0, pad + 1)
      else .error "invalid baase64 character"
    match nE with
    | .error e => .error e
    | .ok (n, pad2) =>
      let v2 := v * 64 + n
      let i2 := i - 1
      if i2 == 0 then
        let res2 := res ++ [v2 / 65536 % 256]
          ++ (if pad2 < 2 then [v2 / 256 % 256] else [])
          ++ (if pad2 < 1 then [v2 % 256] else [])
        base64Go cs 4 0 res2 pad2
      else base64Go cs i2 v2 res pad2

/-- `base64dec_all` (decoders.rs). -/
def base64dec_all (input : String) : Except String (List Nat) :=
  if input.utf8ByteSize % 4 == 1 then .error "bad padding"
  else
    match base64Go input.data 4 0 [] 0 with
    | .error e => .error e
    | .ok (res, i, v, pad) =>
      if i == 3 || (pad > 0 && i != 4) then .error "bad padding"
      else if i == 1 then .ok (res ++ [v / 1024 % 256, v / 4 % 256])
      else if i == 2 then .ok (res ++ [v / 16 % 256])
      else .ok res

/-- `base64dec_all_str` (decoders.rs). -/
def base64dec_all_str (input : String) : Except String String :=
  match base64dec_all input with
  | .ok d =>
    match utf8DecodeStrict d with
    | none => .error "invalid utf8"
    | some x => .ok x
  | .error e => .error e

/-- Rust `char::from_u32`: valid for non-surrogate code points up to
U+10FFFF. -/
def charFromU32 (n : Nat) : Option Char :=
  if n < 55296 || (57344 ≤ n && n ≤ 1114111) then some (Char.ofNat n) else none

/-- Value of a list of hex digits (`u32::from_str_radix(_, 16)` without the
overflow check). -/
def hexListVal (cs : List Char) : Nat :=
  cs.foldl (fun a c => a * 16 + ((from_hex_digit c.toNat).getD 0)) 0

/-- `u32::MAX`. -/
def u32Max : Nat := 4294967295

/-- The `parse_lower` parser inside `parse_unicode` (decoders.rs):
`\uXXXX` with exactly four hex digits. -/
def parse_lower (cs : List Char) : Option (Nat × List Char) :=
  match cs with
  | '\\' :: 'u' :: c1 :: c2 :: c3 :: c4 :: rest =>
    if is_hex_char c1 && is_hex_char c2 && is_hex_char c3 && is_hex_char c4 then
      some (hexListVal [c1, c2, c3, c4], rest)
    else none
  | _ => none

/-- The `parse_css` parser inside `parse_unicode` (decoders.rs): `\` then a
maximal non-empty run of hex digits (failing on `u32` overflow like
`from_str_radix` does), then an optional space. -/
def parse_css (cs : List Char) : Option (Nat × List Char) :=
  match cs with
  | '\\' :: rest =>
    let hex := rest.takeWhile is_hex_char
    let rest2 := rest.dropWhile is_hex_char
    if hex.isEmpty then none
    else if hexListVal hex > u32Max then none
    else
      let rest3 := match rest2 with
        | ' ' :: r => r
        | _ => rest2
      some (hexListVal hex, rest3)
  | _ => none

/-- The `parse_upper` parser inside `parse_unicode` (decoders.rs):
`\UXXXXXXXX` with exactly eight hex digits, converted with `from_hex`
(which includes the `char::from_u32` validity check). -/
def parse_upper (cs : List Char) : Option (Char × List Char) :=
  match cs with
  | '\\' :: 'U' :: rest =>
    let hex := rest.take 8
    if hex.length == 8 && hex.all is_hex_char then
      (charFromU32 (hexListVal hex)).map (fun c => (c, rest.drop 8))
    else none
  | _ => none

/-- The `utf16` parser inside `parse_unicode` (decoders.rs): one
`parse_lower`/`parse_css` code unit, combining surrogate pairs; the
`n2 - 0xdc00` subtraction wraps like Rust `u32` arithmetic. -/
def parse_utf16 (cs : List Char) : Option (Char × List Char) :=
  match (parse_lower cs).orElse (fun _ => parse_css cs) with
  | none => none
  | some (n1, rest) =>
    if 55296 ≤ n1 && n1 ≤ 57343 then
      match (parse_lower rest).orElse (fun _ => parse_css rest) with
      | none => none
      | some (n2, rest2) =>
        let x := (65536 + (n1 - 55296) * 1024 + ((n2 + 4294967296) - 56320)) % 4294967296
        (charFromU32 x).map (fun c => (c, rest2))
    else
      (charFromU32 n1).map (fun c => (c, rest))

/-- The `iterator(.., parseone)` loop of `parse_unicode` (decoders.rs):
`alt((parse_upper, utf16, anychar))` applied repeatedly; the fuel is
instantiated with the character count (every step consumes at least one
character). -/
def parseUnicodeIter : Nat → List Char → Bool → (List Char × Bool)
  | 0, _, changed => ([], changed)
  | _, [], changed => ([], changed)
  | fuel + 1, c :: rest, changed =>
    match parse_upper (c :: rest) with
    | some (ch, rest2) =>
      let r := parseUnicodeIter fuel rest2 true
      (ch :: r.1, r.2)
    | none =>
      match parse_utf16 (c :: rest) with
      | some (ch, rest2) =>
        let r := parseUnicodeIter fuel rest2 true
        (ch :: r.1, r.2)
      | none =>
        let r := parseUnicodeIter fuel rest changed
        (c :: r.1, r.2)

/-- `parse_unicode` (decoders.rs): decode `\uXXXX`, `\XXXX` and
`\UXXXXXXXX` escapes, starting at the first backslash. -/
def parse_unicode (input : String) : DecodingResult String :=
  match input.data.findIdx? (fun c => c == '\\') with
  | none => .noChange
  | some p =>
    let prefixChars := input.data.take p
    let work := input.data.drop p
    let r := parseUnicodeIter work.length work false
    if r.2 then .changed (String.mk (prefixChars ++ r.1)) else .noChange

/-- The `get_entity` table inside `htmlentities` (decoders.rs), applied to
the lowercased entity name. -/
def get_entity (i : String) : Option Char :=
  if i == "quot" then some '"'
  else if i == "amp" then some '&'
  else if i == "lt" then some '<'
  else if i == "gt" then some '>'
  else if i == "nbsp" then some ' '
  else none

/-- The `hex_entity` parser inside `htmlentities` (decoders.rs): one or
more `x`/`X`, then hex digits converted with `from_hex`. -/
def hex_entity (cs : List Char) : Option (Char × List Char) :=
  let xs := cs.takeWhile (fun c => c == 'x' || c == 'X')
  if xs.isEmpty then none
  else
    let rest := cs.dropWhile (fun c => c == 'x' || c == 'X')
    let hex := rest.takeWhile is_hex_char
    if hex.isEmpty then none
    else if hexListVal hex > u32Max then none
    else (charFromU32 (hexListVal hex)).map (fun c => (c, rest.dropWhile is_hex_char))

/-- The `decimal_entity` parser inside `htmlentities` (decoders.rs). -/
def decimal_entity (cs : List Char) : Option (Char × List Char) :=
  let ds := cs.takeWhile (fun c => '0' ≤ c && c ≤ '9')
  if ds.isEmpty then none
  else
    let v := ds.foldl (fun a c => a * 10 + (c.toNat - 48)) 0
    if v > u32Max then none
    else (charFromU32 v).map (fun c => (c, cs.dropWhile (fun c => '0' ≤ c && c ≤ '9')))

/-- The `num_entity` parser inside `htmlentities` (decoders.rs). -/
def num_entity (cs : List Char) : Option (Char × List Char) :=
  match cs with
  | '#' :: rest => (hex_entity rest).orElse (fun _ => decimal_entity rest)
  | _ => none

/-- The `named_entity` parser inside `htmlentities` (decoders.rs): the
characters before the next `;` looked up in the entity table. -/
def named_entity (cs : List Char) : Option (Char × List Char) :=
  let nm := cs.takeWhile (fun c => c != ';')
  (get_entity (String.mk nm).toLower).map (fun c => (c, cs.dropWhile (fun c => c != ';')))

/-- The `parse_char` parser inside `htmlentities` (decoders.rs):
`&` entity `;`. -/
def parse_char_entity (cs : List Char) : Option (Char × List Char) :=
  match cs with
  | '&' :: rest =>
    match (num_entity rest).orElse (fun _ => named_entity rest) with
    | some (e, rest2) =>
      match rest2 with
      | ';' :: rest3 => some (e, rest3)
      | _ => none
    | none => none
  | _ => none

/-- The `iterator(.., alt((parse_char, anychar)))` loop of `htmlentities`. -/
def htmlentitiesIter : Nat → List Char → Bool → (List Char × Bool)
  | 0, _, changed => ([], changed)
  | _, [], changed => ([], changed)
  | fuel + 1, c :: rest, changed =>
    match parse_char_entity (c :: rest) with
    | some (ch, rest2) =>
      let r := htmlentitiesIter fuel rest2 true
      (ch :: r.1, r.2)
    | none =>
      let r := htmlentitiesIter fuel rest changed
      (c :: r.1, r.2)

/-- `htmlentities` (decoders.rs): decode `&...;` entities, starting at the
first ampersand. -/
def htmlentities (input : String) : DecodingResult String :=
  match input.data.findIdx? (fun c => c == '&') with
  | none => .noChange
  | some p =>
    let prefixChars := input.data.take p
    let work := input.data.drop p
    let r := htmlentitiesIter work.length work false
    if r.2 then .changed (String.mk (prefixChars ++ r.1)) else .noChange

/-- `RequestField::add` (requestfields.rs): run the configured decode
transformations, then insert the raw and/or decoded value via `base_add`.
The fold state is `(v, changed, replace_parameter)`. -/
def RequestField.add (rf : RequestField) (key : String) (ds : Location)
    (value : String) : RequestField :=
  let st :=
    if value.isEmpty then (value, false, true)
    else
      rf.decoding.foldl (fun (st : String × Bool × Bool) tr =>
        let v := st.1
        let changed := st.2.1
        let rp := st.2.2
        match tr with
        | .base64Decode =>
          match base64dec_all_str v with
          | .ok n => (n, true, false)
          | .error _ => (v, changed, rp)
        | .urlDecode =>
          match urldecode_str v with
          | .changed ns => (ns, true, rp)
          | .noChange => (v, changed, rp)
        | .htmlEntitiesDecode =>
          match htmlentities v with
          | .changed ns => (ns, true, rp)
          | .noChange => (v, changed, rp)
        | .unicodeDecode =>
          match parse_unicode v with
          | .changed ns => (ns, true, rp)
          | .noChange => (v, changed, rp)) (value, false, true)
  let change : Option String := if value.isEmpty then none else (if st.2.1 then some st.1 else none)
  match st.2.2, change with
  | _, none => rf.base_add key ds value
  | false, some decoded_value =>
    ((rf.base_add (key ++ ":decoded") ds decoded_value).base_add key ds value)
  | true, some decoded_value => rf.base_add key ds decoded_value

/-! ## SHA-224 and masking (utils/mod.rs `masker`, requestfields.rs `mask`)

SHA-224 (FIPS 180-4) over byte lists, with 32-bit words as `Nat` reduced
modulo `2^32`. -/

/-- Reduction modulo `2^32`. -/
def u32 (n : Nat) : Nat := n % 4294967296

/-- 32-bit right rotation. -/
def rotr32 (r x : Nat) : Nat := u32 ((x >>> r) ||| (x <<< (32 - r)))

/-- SHA-2 `Ch`. -/
def shaCh (x y z : Nat) : Nat := (x &&& y) ^^^ ((4294967295 ^^^ x) &&& z)

/-- SHA-2 `Maj`. -/
def shaMaj (x y z : Nat) : Nat := (x &&& y) ^^^ (x &&& z) ^^^ (y &&& z)

/-- SHA-256 Σ0. -/
def bigSigma0 (x : Nat) : Nat := rotr32 2 x ^^^ rotr32 13 x ^^^ rotr32 22 x

/-- SHA-256 Σ1. -/
def bigSigma1 (x : Nat) : Nat := rotr32 6 x ^^^ rotr32 11 x ^^^ rotr32 25 x

/-- SHA-256 σ0. -/
def smallSigma0 (x : Nat) : Nat := rotr32 7 x ^^^ rotr32 18 x ^^^ (x >>> 3)

/-- SHA-256 σ1. -/
def smallSigma1 (x : Nat) : Nat := rotr32 17 x ^^^ rotr32 19 x ^^^ (x >>> 10)

/-- The SHA-256 round constants (FIPS 180-4, written in decimal). -/
def shaK : List Nat :=
  [1116352408, 1899447441, 3049323471, 3921009573,
   961987163, 1508970993, 2453635748, 2870763221,
   3624381080, 310598401, 607225278, 1426881987,
   1925078388, 2162078206, 2614888103, 3248222580,
   3835390401, 4022224774, 264347078, 604807628,
   770255983, 1249150122, 1555081692, 1996064986,
   2554220882, 2821834349, 2952996808, 3210313671,
   3336571891, 3584528711, 113926993, 338241895,
   666307205, 773529912, 1294757372, 1396182291,
   1695183700, 1986661051, 2177026350, 2456956037,
   2730485921, 2820302411, 3259730800, 3345764771,
   3516065817, 3600352804, 4094571909, 275423344,
   430227734, 506948616, 659060556, 883997877,
   958139571, 1322822218, 1537002063, 1747873779,
   1955562222, 2024104815, 2227730452, 2361852424,
   2428436474, 2756734187, 3204031479, 3329325298]

/-- The SHA-224 initial hash values (FIPS 180-4, written in decimal). -/
def sha224IV : List Nat :=
  [3238371032, 914150663, 812702999, 4144912697,
   4290775857, 1750603025, 1694076839, 3204075428]

/-- Big-endian 32-bit words of a byte list (length a multiple of 4). -/
def bytesToWords : List Nat → List Nat
  | b0 :: b1 :: b2 :: b3 :: rest => (((b0 * 256 + b1) * 256 + b2) * 256 + b3) :: bytesToWords rest
  | _ => []

/-- Message-schedule expansion of one 16-word block to 64 words. -/
def shaSchedule (w16 : List Nat) : Array Nat :=
  (List.range 48).foldl (fun a j =>
    let i := j + 16
    a.push (u32 (smallSigma1 (a.getD (i - 2) 0) + a.getD (i - 7) 0
      + smallSigma0 (a.getD (i - 15) 0) + a.getD (i - 16) 0))) w16.toArray

/-- One SHA-256 compression round step on the 8-word working state. -/
def shaRound (w : Array Nat) (st : List Nat) (i : Nat) : List Nat :=
  match st with
  | [a, b, c, d, e, f, g, h] =>
    let t1 := u32 (h + bigSigma1 e + shaCh e f g + shaK.getD i 0 + w.getD i 0)
    let t2 := u32 (bigSigma0 a + shaMaj a b c)
    [u32 (t1 + t2), a, b, c, u32 (d + t1), e, f, g]
  | _ => st

/-- SHA-256 compression of one 16-word block into the 8-word state. -/
def shaCompress (h : List Nat) (block : List Nat) : List Nat :=
  let w := shaSchedule block
  let final := (List.range 64).foldl (shaRound w) h
  (h.zip final).map (fun p => u32 (p.1 + p.2))

/-- Process `n` 64-byte blocks. -/
def shaBlocks : Nat → List Nat → List Nat → List Nat
  | 0, _, h => h
  | n + 1, bytes, h => shaBlocks n (bytes.drop 64) (shaCompress h (bytesToWords (bytes.take 64)))

/-- SHA-224 digest (28 bytes) of a byte list. -/
def sha224 (msg : List Nat) : List Nat :=
  let L := msg.length
  let k := (56 + 64 - ((L + 1) % 64)) % 64
  let bitLen := 8 * L
  let lenBytes := [bitLen / 72057594037927936 % 256, bitLen / 281474976710656 % 256,
    bitLen / 1099511627776 % 256, bitLen / 4294967296 % 256, bitLen / 16777216 % 256,
    bitLen / 65536 % 256, bitLen / 256 % 256, bitLen % 256]
  let padded := msg ++ [128] ++ List.replicate k 0 ++ lenBytes
  let hfin := shaBlocks (padded.length / 64) padded sha224IV
  ((hfin.take 7).map (fun w => [w / 16777216 % 256, w / 65536 % 256, w / 256 % 256, w % 256])).flatten

/-- One lowercase hex digit. -/
def hexDigitChar (n : Nat) : Char :=
  if n < 10 then Char.ofNat (48 + n) else Char.ofNat (87 + n)

/-- Lowercase hex string of a byte list, two digits per byte
(`format!("\x7b:x\x7d", bytes)` on a digest). -/
def hexOfBytes (bs : List Nat) : String :=
  String.mk ((bs.map (fun b => [hexDigitChar (b / 16 % 16), hexDigitChar (b % 16)])).flatten)

/-- `utils::masker` (utils/mod.rs lines 843-850): `MASKED{h}` where `h` is
the first 8 hex characters of `sha224(seed || value)`. -/
def masker (seed : List Nat) (value : String) : String :=
  let bytes := sha224 (seed ++ utf8Encode value)
  let hash_str := hexOfBytes bytes
  "MASKED\x7b" ++ String.mk (hash_str.data.take 8) ++ "\x7d"

/-- `RequestField::mask` (requestfields.rs lines 92-100): replace the value
stored under `key` by its masked placeholder and return the locations of
the masked field. -/
def RequestField.mask (rf : RequestField) (masking_seed : List Nat) (key : String) :
    RequestField × List Location :=
  match rf.fields.find? (fun kv => kv.1 == key) with
  | some kv =>
    ({ rf with fields := rf.fields.map (fun kv2 =>
        if kv2.1 == key then (kv2.1, (masker masking_seed kv2.2.1, kv2.2.2)) else kv2) },
     kv.2.2)
  | none => (rf, [])

/-! ## JSON body flattening (body/mod.rs) -/

/-- `utils::BodyProblem`. -/
inductive BodyProblem where
  | decodingError (actual : String) (expected : Option String)
  | tooDeep
deriving DecidableEq, Repr

/-- `json_path` (body/mod.rs). -/
def json_path (pfx : List String) : String :=
  if pfx.isEmpty then "JSON_ROOT" else String.intercalate "_" pfx

/-- `flatten_json` (body/mod.rs lines 48-94): structural recursion on the
depth budget; the source's push/set/pop handling of `prefix` is modelled by
passing `prefix ++ [component]` to the recursive calls. -/
def flatten_json : Nat → RequestField → List String → JValue → Except Unit RequestField
  | 0, _, _, _ => .error ()
  | b + 1, args, pfx, v =>
    match v with
    | .arr vs =>
      let rec goArr (args : RequestField) (i : Nat) :
          List JValue → Except Unit RequestField
        | [] => .ok args
        | w :: ws =>
          match flatten_json b args (pfx ++ [toString i]) w with
          | .error e => .error e
          | .ok args2 => goArr args2 (i + 1) ws
      goArr args 0 vs
    | .obj kvs =>
      let rec goObj (args : RequestField) :
          List (String × JValue) → Except Unit RequestField
        | [] => .ok args
        | (k, w) :: ws =>
          match flatten_json b args (pfx ++ [k]) w with
          | .error e => .error e
          | .ok args2 => goObj args2 ws
      goObj args kvs
    | .str s => .ok (args.add (json_path pfx) .body s)
    | .bool bb => .ok (args.add (json_path pfx) .body (if bb then "true" else "false"))
    | .num n => .ok (args.add (json_path pfx) .body (toString n))
    | .null => .ok (args.add (json_path pfx) .body "null")

/-- `json_body` (body/mod.rs lines 100-105), starting from the
already-parsed JSON value (the `serde_json::from_slice` step is external
library code; a parse failure yields `DecodingError` before `flatten_json`
runs). -/
def json_body (mxdepth : Nat) (args : RequestField) (value : JValue) :
    Except BodyProblem RequestField :=
  match flatten_json mxdepth args [] value with
  | .error _ => .error .tooDeep
  | .ok args2 => .ok args2

/-! ## Concrete example inputs used by counterexamples and witnesses -/

/-- Tag set carrying a bot-allow tag and a human-deny tag. -/
def aclExTags : Tags := ⟨[("b", [.request]), ("h", [.request])]⟩

/-- ACL profile with `allow_bot = {b}` and `deny = {h}`. -/
def aclExProfile : AclProfile := ⟨"aclid", "aclname", [], ["b"], ["h"], [], [], []⟩

/-- A `Decision` carrying the default block action, as materialized for a
challenge that cannot be issued (`Action::default()` in
`SimpleAction::to_decision`). -/
def dExChallenge : Decision := ⟨some Action.default, []⟩

/-- The block `Action` materialized for a custom action
(`ActionType::Block` with the configured content). -/
def actCustom : Action :=
  { atype := .block
    block_mode := true
    status := 403
    headers := none
    content := "custom block"
    extra_tags := none }

/-- A `Decision` carrying a custom block action. -/
def dExCustom : Decision := ⟨some actCustom, []⟩

/-- A monitor `Action` with a header. -/
def actMonitor : Action :=
  { atype := .monitor
    block_mode := false
    status := 200
    headers := some [("x-mon", "1")]
    content := ""
    extra_tags := none }

/-- A `Decision` carrying a monitor action. -/
def dExMonitor : Decision := ⟨some actMonitor, []⟩

/-- Content-filter entry with `restrict = true`, no regex, and an exclusion
tag. -/
def cfExEntry : ContentFilterEntryMatch := ⟨none, true, false, ["trusted"]⟩

/-- Section with a single name rule bound to `cfExEntry`. -/
def cfExSection : ContentFilterSection := ⟨10, 100, [("n", cfExEntry)], []⟩

/-- Section with only structural limits (`max_count = 10`,
`max_length = 2`). -/
def cfLimitSection : ContentFilterSection := ⟨10, 2, [], []⟩

/-- Request tags containing the excluded tag `trusted`. -/
def cfExTags : Tags := ⟨[("trusted", [.request])]⟩

/-- A field store with a single field `k` bound to `"a"`. -/
def maskExField : RequestField := ⟨[], [("k", ("a", [.request]))]⟩

/-- A negated always-true global-filter entry. -/
def gfExEntry : GlobalFilterEntry := ⟨true, .always true⟩

/-- An empty request field store. -/
def emptyRF : RequestField := RequestField.new []

/-- A minimal concrete request. -/
def gfExRequest : RequestInfo :=
  ⟨emptyRF, emptyRF,
   ⟨⟨"GET"⟩, ⟨none, none, none, none, none, none⟩, ⟨"/p", none, "/p", emptyRF⟩,
    "localhost", ⟨"polid", "entryid"⟩⟩,
   emptyRF⟩

/-- An incremental state whose profile sets `ignore_body`, with content
filtering active and a small `max_body_size`. -/
def idataEx : IData :=
  ⟨[("host", "localhost")],
   ⟨⟨"cfid", "cfname", true, 5, ⟨.monitor, none, 503, none⟩⟩, true⟩,
   none⟩

set_option maxRecDepth 10000

/-! ## Theorems -/

/-- C1, counterexample: a reachable `Match` with bot verdict allow and human
verdict deny resolves to stage `Deny`, not `AllowBot` — so bot=allow does
not always win, and a hard `Deny` arises from a `Match` with both verdicts
present whose bot verdict is allow (not deny). -/
theorem acl_c1_counterexample :
    check_acl aclExTags aclExProfile
      = .matchres (some (true, ⟨[("b", [.request])]⟩)) (some (false, ⟨[("h", [.request])]⟩)) ∧
    (check_acl aclExTags aclExProfile).decision false
      = some ⟨.deny, ⟨[("h", [.request])]⟩, false⟩ ∧
    (check_acl aclExTags aclExProfile).decision true
      = some ⟨.deny, ⟨[("h", [.request])]⟩, false⟩ ∧
    AclStage.deny ≠ AclStage.allowBot := by
  refine ⟨by decide, by decide, by decide, by decide⟩

/-- C1 (corrected): from a `Match`, a bot verdict of allow resolves to
`AllowBot` only when the human verdict is not deny; when the human verdict
is deny the stage is a hard `Deny` (with the human tags).  From a `Match`
with both verdicts present, the stage is `Deny` exactly when the human
verdict is deny and additionally the bot verdict is allow or the requester
is verified human. -/
theorem acl_decision_bot_allow_amended :
    (∀ (tb th : Tags) (ih : Bool),
      (AclResult.matchres (some (true, tb)) (some (false, th))).decision ih
        = some ⟨.deny, th, false⟩) ∧
    (∀ (tb : Tags) (ih : Bool),
      (AclResult.matchres (some (true, tb)) none).decision ih
        = some ⟨.allowBot, tb, false⟩) ∧
    (∀ (tb th : Tags) (ih : Bool),
      (AclResult.matchres (some (true, tb)) (some (true, th))).decision ih
        = some ⟨.allowBot, tb, false⟩) ∧
    (∀ (b hv : Bool) (tb th : Tags) (ih : Bool) (d : AclDecisionDetails),
      (AclResult.matchres (some (b, tb)) (some (hv, th))).decision ih = some d →
        (d.stage = .deny ↔ hv = false ∧ (b = true ∨ ih = true))) := by
  refine ⟨fun tb th ih => rfl, fun tb ih => rfl, fun tb th ih => rfl, ?_⟩
  intro b hv tb th ih d h
  cases b <;> cases hv <;> cases ih <;>
    simp only [AclResult.decision, Option.some.injEq] at h <;> subst h <;> simp

/-- C1 witness: the deny characterization applied at
`(bot = allow, human = deny, is_human = false)`. -/
theorem acl_decision_bot_allow_amended_witness :
    ((⟨AclStage.deny, ⟨[]⟩, false⟩ : AclDecisionDetails).stage = AclStage.deny
      ↔ false = false ∧ (true = true ∨ false = true)) :=
  acl_decision_bot_allow_amended.2.2.2 true false ⟨[]⟩ ⟨[]⟩ false
    ⟨.deny, ⟨[]⟩, false⟩ (by decide)

/-- C2 (confirmed): with a bot verdict of deny and a requester that is not
verified human, the stage is `DenyBot` with the bot tags; the challenge
flag is true when the human verdict is allow or absent and false when the
human verdict is also deny. -/
theorem acl_decision_denybot_challenge :
    (∀ tb : Tags,
      (AclResult.matchres (some (false, tb)) none).decision false
        = some ⟨.denyBot, tb, true⟩) ∧
    (∀ tb th : Tags,
      (AclResult.matchres (some (false, tb)) (some (true, th))).decision false
        = some ⟨.denyBot, tb, true⟩) ∧
    (∀ tb th : Tags,
      (AclResult.matchres (some (false, tb)) (some (false, th))).decision false
        = some ⟨.denyBot, tb, false⟩) :=
  ⟨fun _ => rfl, fun _ _ => rfl, fun _ _ => rfl⟩

/-- C8 (confirmed): flattening `[["a"]]` with `max_depth = 2` exhausts the
depth budget (`TooDeep`); with `max_depth = 3` it succeeds — for every
starting field store. -/
theorem json_body_depth_budget :
    (∀ args : RequestField, json_body 2 args (.arr [.arr [.str "a"]]) = .error .tooDeep) ∧
    (∀ args : RequestField, (json_body 3 args (.arr [.arr [.str "a"]])).isOk = true) :=
  ⟨fun _ => rfl, fun _ => rfl⟩

/-- C10 (confirmed): when the resolved content-filter profile sets
`ignore_body`, `add_body` returns the state unchanged for every chunk —
the chunk is discarded and the `max_body_size` check is not applied, even
with content filtering active. -/
theorem add_body_ignore_body :
    ∀ (idata : IData) (new_body : List Nat),
      idata.secpol.content_filter_profile.ignore_body = true →
      add_body idata new_body = .ok idata := by
  intro idata new_body h
  simp [add_body, h]

/-- C10 witness: a 10-byte chunk against `max_body_size = 5` with content
filtering active is accepted unchanged because `ignore_body` is set. -/
theorem add_body_ignore_body_witness :
    add_body idataEx [1, 2, 3, 4, 5, 6, 7, 8, 9, 10] = .ok idataEx :=
  add_body_ignore_body idataEx [1, 2, 3, 4, 5, 6, 7, 8, 9, 10] rfl

/-- Helper: looking up a key after masking every binding of that key yields
the masked original value. -/
theorem find_map_mask (l : List (String × (String × List Location)))
    (seed : List Nat) (key v : String) :
    ((l.find? (fun kv => kv.1 == key)).map (fun kv => kv.2.1)) = some v →
    (((l.map (fun kv2 =>
        if kv2.1 == key then (kv2.1, (masker seed kv2.2.1, kv2.2.2)) else kv2)).find?
          (fun kv => kv.1 == key)).map (fun kv => kv.2.1)) = some (masker seed v) := by
  intro h
  induction l with
  | nil => simp at h
  | cons hd tl ih =>
    by_cases hk : (hd.1 == key) = true
    · rw [show (hd :: tl).find? (fun kv => kv.1 == key) = some hd from by simp [hk]] at h
      simp only [Option.map_some', Option.some.injEq] at h
      subst h
      simp only [List.map_cons, if_pos hk]
      rw [show ((hd.1, masker seed hd.2.1, hd.2.2) ::
          tl.map (fun kv2 => if kv2.1 == key then (kv2.1, masker seed kv2.2.1, kv2.2.2) else kv2)).find?
            (fun kv => kv.1 == key) = some (hd.1, masker seed hd.2.1, hd.2.2) from by simp [hk]]
      simp
    · rw [show (hd :: tl).find? (fun kv => kv.1 == key) = tl.find? (fun kv => kv.1 == key) from by
        simp [hk]] at h
      simp only [List.map_cons, if_neg hk]
      rw [show ((hd : String × String × List Location) ::
          tl.map (fun kv2 => if kv2.1 == key then (kv2.1, masker seed kv2.2.1, kv2.2.2) else kv2)).find?
            (fun kv => kv.1 == key)
          = (tl.map (fun kv2 => if kv2.1 == key then (kv2.1, masker seed kv2.2.1, kv2.2.2) else kv2)).find?
            (fun kv => kv.1 == key) from by simp [hk]]
      exact ih h

/-- C5, counterexample: masking the field `k` (value `"a"`, empty seed) once
stores `MASKED{abd37534}`; masking it a second time re-hashes the
placeholder and stores `MASKED{eda46c02}`, so the second application does
not leave the stored value equal to the value after the first. -/
theorem mask_c5_counterexample :
    (maskExField.mask [] "k").1.get "k" = some "MASKED\x7babd37534\x7d" ∧
    ((maskExField.mask [] "k").1.mask [] "k").1.get "k"
      = some "MASKED\x7beda46c02\x7d" ∧
    ((maskExField.mask [] "k").1.mask [] "k").1.get "k"
      ≠ (maskExField.mask [] "k").1.get "k" := by
  refine ⟨by decide, by decide, by decide⟩

/-- C5 (corrected): each application of `mask(seed, key)` replaces the
stored value `v` by the deterministic placeholder `masker(seed, v)`
(`MASKED{h}` with `h` the first 8 hex characters of
`sha224(seed || v)`) and returns the field's locations; masking a missing
key does nothing; and two fields holding the same value mask to the same
placeholder.  A second application therefore hashes the placeholder itself
and in general changes the stored value. -/
theorem mask_spec :
    (∀ (rf : RequestField) (seed : List Nat) (key v : String),
      rf.get key = some v →
      (rf.mask seed key).1.get key = some (masker seed v)) ∧
    (∀ (rf : RequestField) (seed : List Nat) (key : String),
      rf.get key = none → rf.mask seed key = (rf, [])) ∧
    (∀ (rf1 rf2 : RequestField) (seed : List Nat) (k1 k2 v : String),
      rf1.get k1 = some v → rf2.get k2 = some v →
      (rf1.mask seed k1).1.get k1 = (rf2.mask seed k2).1.get k2) := by
  have hmask : ∀ (rf : RequestField) (seed : List Nat) (key v : String),
      rf.get key = some v →
      (rf.mask seed key).1.get key = some (masker seed v) := by
    intro rf seed key v h
    unfold RequestField.mask
    unfold RequestField.get at h
    cases hf : rf.fields.find? (fun kv => kv.1 == key) with
    | none => rw [hf] at h; simp at h
    | some kv =>
      simp only
      exact find_map_mask rf.fields seed key v h
  refine ⟨hmask, ?_, ?_⟩
  · intro rf seed key h
    unfold RequestField.mask
    unfold RequestField.get at h
    cases hf : rf.fields.find? (fun kv => kv.1 == key) with
    | none => simp
    | some kv => rw [hf] at h; simp at h
  · intro rf1 rf2 seed k1 k2 v h1 h2
    rw [hmask rf1 seed k1 v h1, hmask rf2 seed k2 v h2]

/-- C5 witness: the general mask specification applied to the concrete
single-field store. -/
theorem mask_spec_witness :
    (maskExField.mask [] "k").1.get "k" = some (masker [] "a") :=
  mask_spec.1 maskExField [] "k" "a" rfl

/-- C6, counterexample: a negated always-true entry is negated-and-matched;
`check_entry` returns `matching = false` but keeps the underlying matched
location set `{Request}`, which is not empty. -/
theorem check_entry_c6_counterexample :
    check_entry gfExRequest ⟨[]⟩ gfExEntry = ⟨[.request], false⟩ ∧
    check_entry_raw gfExRequest ⟨[]⟩ gfExEntry = some [.request] ∧
    ([Location.request] : List Location) ≠ [] :=
  ⟨rfl, rfl, by decide⟩

/-- C6 (corrected): for a negated entry, when the underlying predicate
matches with locations `m`, `check_entry` returns `matching = false` with
the matched-location set `m` preserved (not emptied); the empty set arises
in the negated-and-unmatched case, which returns `matching = true`. -/
theorem check_entry_negation_amended :
    (∀ (rinfo : RequestInfo) (tags : Tags) (sub : GlobalFilterEntry)
        (m : List Location),
      sub.negated = true →
      check_entry_raw rinfo tags sub = some m →
      check_entry rinfo tags sub = ⟨m, false⟩) ∧
    (∀ (rinfo : RequestInfo) (tags : Tags) (sub : GlobalFilterEntry),
      sub.negated = true →
      check_entry_raw rinfo tags sub = none →
      check_entry rinfo tags sub = ⟨[], true⟩) := by
  constructor
  · intro rinfo tags sub m hneg hraw
    unfold check_entry
    rw [hraw, hneg]
    rfl
  · intro rinfo tags sub hneg hraw
    unfold check_entry
    rw [hraw, hneg]

/-- C6 witness: the amended statement applied to the negated always-true
entry on the concrete request. -/
theorem check_entry_negation_amended_witness :
    check_entry gfExRequest ⟨[]⟩ gfExEntry = ⟨[Location.request], false⟩ :=
  check_entry_negation_amended.1 gfExRequest ⟨[]⟩ gfExEntry [.request] rfl rfl

/-- C4, counterexample: an entry with `restrict = true` and no regex match
is blocked with a restriction reason even though the request carries one of
the entry's excluded tags — the tag-based exclusion does not suppress the
restriction (the `restrict` branch is checked first). -/
theorem section_check_c4_counterexample :
    section_check "cfid" "cfname" .custom cfExTags .args cfExSection
        [("n", "val")] false Omitted.default
      = .error (BlockReason.restricted "cfid" "cfname" .custom
          (.uriArgumentValue "n" "val") "val" "") ∧
    cfExTags.has_intersection cfExEntry.exclusions = true :=
  ⟨rfl, rfl⟩

/-- C4 (corrected): in per-value rule matching, an entry with
`restrict = true` whose regex does not match the value is always blocked
with a restriction reason, regardless of the entry's exclusions and the
request's tags; tag-based exclusions only apply to non-restricted,
non-matched entries, where they mark the value as omitted from further
scanning. -/
theorem cf_check_entry_amended :
    (∀ (cfid cfname : String) (action : RawActionType) (tags : Tags)
        (idx : SectionIdx) (name value : String) (om : Omitted)
        (e : ContentFilterEntryMatch),
      e.restrict = true →
      (match e.reg with | some re => re.matchesFn value | none => false) = false →
      cfCheckEntry cfid cfname action tags idx name value om e
        = .error (BlockReason.restricted cfid cfname action
            (Location.from_value idx name value) value
            ((e.reg.map (fun re => re.inner)).getD ""))) ∧
    (∀ (cfid cfname : String) (action : RawActionType) (tags : Tags)
        (idx : SectionIdx) (name value : String) (om : Omitted)
        (e : ContentFilterEntryMatch),
      e.restrict = false →
      (match e.reg with | some re => re.matchesFn value | none => false) = false →
      tags.has_intersection e.exclusions = true →
      cfCheckEntry cfid cfname action tags idx name value om e
        = .ok (om.insertEntry idx name)) := by
  constructor
  · intro cfid cfname action tags idx name value om e hres hmatch
    unfold cfCheckEntry
    cases hreg : e.reg with
    | none => simp [hreg, hres]
    | some re =>
      rw [hreg] at hmatch
      simp only [] at hmatch
      simp [hreg, hmatch, hres]
  · intro cfid cfname action tags idx name value om e hres hmatch hexc
    unfold cfCheckEntry
    cases hreg : e.reg with
    | none => simp [hreg, hres, hexc]
    | some re =>
      rw [hreg] at hmatch
      simp only [] at hmatch
      simp [hreg, hmatch, hres, hexc]

/-- C4 witness: the restriction fires on the concrete entry despite the
matching excluded tag. -/
theorem cf_check_entry_amended_witness :
    cfCheckEntry "cfid" "cfname" .custom cfExTags .args "n" "val"
        Omitted.default cfExEntry
      = .error (BlockReason.restricted "cfid" "cfname" .custom
          (Location.from_value .args "n" "val") "val"
          ((cfExEntry.reg.map (fun re => re.inner)).getD "")) :=
  cf_check_entry_amended.1 "cfid" "cfname" .custom cfExTags .args "n" "val"
    Omitted.default cfExEntry rfl rfl

/-- Helper: every error produced by the per-entry check is a `restricted`
block reason. -/
theorem cfCheckEntry_error_type
    (cfid cfname : String) (action : RawActionType) (tags : Tags)
    (idx : SectionIdx) (name value : String) (om : Omitted)
    (e : ContentFilterEntryMatch) (r : BlockReason) :
    cfCheckEntry cfid cfname action tags idx name value om e = .error r →
    r.restrictionType = some "restricted" := by
  intro h
  unfold cfCheckEntry at h
  cases hreg : e.reg <;> rw [hreg] at h <;> simp only [] at h <;>
    split_ifs at h <;> simp_all [BlockReason.restricted] <;> (subst h; rfl)

/-- Helper: every error produced by the regex-rule loop is a `restricted`
block reason. -/
theorem cfCheckRegexRules_error_type
    (cfid cfname : String) (action : RawActionType) (tags : Tags)
    (idx : SectionIdx) (name value : String) :
    ∀ (rules : List (NameRegex × ContentFilterEntryMatch)) (om : Omitted)
      (r : BlockReason),
      cfCheckRegexRules cfid cfname action tags idx name value om rules = .error r →
      r.restrictionType = some "restricted" := by
  intro rules
  induction rules with
  | nil => intro om r h; simp [cfCheckRegexRules] at h
  | cons hd tl ih =>
    rcases hd with ⟨re, v⟩
    intro om r h
    simp only [cfCheckRegexRules] at h
    by_cases hm : re.is_match name = true
    · rw [if_pos hm] at h
      cases hce : cfCheckEntry cfid cfname action tags idx name value om v with
      | error r0 =>
        rw [hce] at h
        simp only [Except.error.injEq] at h
        subst h
        exact cfCheckEntry_error_type cfid cfname action tags idx name value om v r0 hce
      | ok om2 =>
        rw [hce] at h
        exact ih om2 r h
    · rw [if_neg hm] at h
      exact ih om r h

/-- Helper: every error produced by the per-field loop is either a
`restricted` reason or an entry-too-large reason attributed to a field of
the list whose key does not end in `:decoded` and whose value exceeds the
section's `max_length`. -/
theorem cfCheckFields_error_type
    (cfid cfname : String) (action : RawActionType) (tags : Tags)
    (idx : SectionIdx) (sec : ContentFilterSection) (ia : Bool) :
    ∀ (params : List (String × String)) (om : Omitted) (r : BlockReason),
      cfCheckFields cfid cfname action tags idx sec ia om params = .error r →
      r.restrictionType = some "restricted" ∨
      ∃ name value, (name, value) ∈ params ∧ strEndsWith name ":decoded" = false ∧
        value.utf8ByteSize > sec.max_length ∧
        r = BlockReason.entry_too_large cfid cfname action idx name
              value.utf8ByteSize sec.max_length := by
  intro params
  induction params with
  | nil => intro om r h; simp [cfCheckFields] at h
  | cons hd tl ih =>
    rcases hd with ⟨name, value⟩
    intro om r h
    simp only [cfCheckFields] at h
    by_cases h1 : (!strEndsWith name ":decoded"
        && decide (value.utf8ByteSize > sec.max_length)
        && decide (sec.max_length > 0)) = true
    · rw [if_pos h1] at h
      simp only [Except.error.injEq] at h
      subst h
      right
      refine ⟨name, value, List.mem_cons_self _ _, ?_, ?_, rfl⟩
      · simp only [Bool.and_eq_true, Bool.not_eq_true'] at h1
        exact h1.1.1
      · simp only [Bool.and_eq_true, decide_eq_true_eq] at h1
        exact h1.1.2
    · rw [if_neg h1] at h
      by_cases h2 : (ia && value.data.all isAsciiAlphanum) = true
      · rw [if_pos h2] at h
        rcases ih (om.insertEntry idx name) r h with hl | ⟨n, v, hmem, hd, hsz, hr⟩
        · exact Or.inl hl
        · exact Or.inr ⟨n, v, List.mem_cons_of_mem _ hmem, hd, hsz, hr⟩
      · rw [if_neg h2] at h
        cases hf : sec.names.find? (fun kv => kv.1 == name) with
        | some entry =>
          rw [hf] at h
          simp only [] at h
          cases hce : cfCheckEntry cfid cfname action tags idx name value om entry.2 with
          | error r0 =>
            rw [hce] at h
            simp only [Except.error.injEq] at h
            subst h
            exact Or.inl
              (cfCheckEntry_error_type cfid cfname action tags idx name value om entry.2 r0 hce)
          | ok om2 =>
            rw [hce] at h
            rcases ih om2 r h with hl | ⟨n, v, hmem, hd, hsz, hr⟩
            · exact Or.inl hl
            · exact Or.inr ⟨n, v, List.mem_cons_of_mem _ hmem, hd, hsz, hr⟩
        | none =>
          rw [hf] at h
          simp only [] at h
          cases hcr : cfCheckRegexRules cfid cfname action tags idx name value om sec.regex with
          | error r0 =>
            rw [hcr] at h
            simp only [Except.error.injEq] at h
            subst h
            exact Or.inl
              (cfCheckRegexRules_error_type cfid cfname action tags idx name value
                sec.regex om r0 hcr)
          | ok om2 =>
            rw [hcr] at h
            rcases ih om2 r h with hl | ⟨n, v, hmem, hd, hsz, hr⟩
            · exact Or.inl hl
            · exact Or.inr ⟨n, v, List.mem_cons_of_mem _ hmem, hd, hsz, hr⟩

/-- C7 (confirmed): every entry-too-large (`"too large"`) block reason
returned by `section_check` is attributed to a field whose key does not
end in `:decoded` — fields with a `:decoded` key are exempt from the
max-length structural check, regardless of their length and of the
section's `max_length`. -/
theorem section_check_decoded_exempt :
    ∀ (cfid cfname : String) (action : RawActionType) (tags : Tags)
      (idx : SectionIdx) (sec : ContentFilterSection)
      (params : List (String × String)) (ia : Bool) (om : Omitted)
      (r : BlockReason),
      section_check cfid cfname action tags idx sec params ia om = .error r →
      r.restrictionType = some "too large" →
      ∃ name value, (name, value) ∈ params ∧ strEndsWith name ":decoded" = false ∧
        value.utf8ByteSize > sec.max_length ∧
        r = BlockReason.entry_too_large cfid cfname action idx name
              value.utf8ByteSize sec.max_length := by
  intro cfid cfname action tags idx sec params ia om r h htype
  unfold section_check at h
  by_cases hc : (idx != SectionIdx.path && decide (params.length > sec.max_count)
      && decide (sec.max_count > 0)) = true
  · rw [if_pos hc] at h
    simp only [Except.error.injEq] at h
    subst h
    simp [BlockReason.restrictionType, BlockReason.too_many_entries] at htype
  · rw [if_neg hc] at h
    rcases cfCheckFields_error_type cfid cfname action tags idx sec ia params om r h with
      hl | hr
    · rw [hl] at htype
      simp at htype
    · exact hr

/-- C7 witness: a 3-byte value under `max_length = 2` produces an
entry-too-large reason attributed to the (non-decoded) key `b`. -/
theorem section_check_decoded_exempt_witness :
    ∃ name value, (name, value) ∈ [("b", "xyz")] ∧ strEndsWith name ":decoded" = false ∧
      value.utf8ByteSize > cfLimitSection.max_length ∧
      BlockReason.entry_too_large "i" "n" .custom .args "b" 3 2
        = BlockReason.entry_too_large "i" "n" .custom .args name
            value.utf8ByteSize cfLimitSection.max_length :=
  section_check_decoded_exempt "i" "n" .custom ⟨[]⟩ .args cfLimitSection
    [("b", "xyz")] false Omitted.default
    (BlockReason.entry_too_large "i" "n" .custom .args "b" 3 2) rfl rfl

/-- C9 (confirmed): for the `Path` section the field-count check never
runs — `section_check` at `Path` never returns a too-many-entries
(`"too many"`) block reason, for every field list and `max_count`. -/
theorem section_check_path_no_count :
    ∀ (cfid cfname : String) (action : RawActionType) (tags : Tags)
      (sec : ContentFilterSection) (params : List (String × String))
      (ia : Bool) (om : Omitted) (r : BlockReason),
      section_check cfid cfname action tags .path sec params ia om = .error r →
      r.restrictionType ≠ some "too many" := by
  intro cfid cfname action tags sec params ia om r h
  unfold section_check at h
  simp only [bne_self_eq_false, Bool.false_and] at h
  rcases cfCheckFields_error_type cfid cfname action tags .path sec ia params om r h with
    hl | ⟨n, v, _, _, _, hr⟩
  · rw [hl]; simp
  · rw [hr]
    simp [BlockReason.restrictionType, BlockReason.entry_too_large]

/-- C9 witness: a path field list that fails the max-length check yields a
`"too large"` reason, which is not a too-many-entries reason. -/
theorem section_check_path_no_count_witness :
    (BlockReason.entry_too_large "i" "n" RawActionType.custom SectionIdx.path "b" 3
        2).restrictionType ≠ some "too many" :=
  section_check_path_no_count "i" "n" .custom ⟨[]⟩ cfLimitSection [("b", "xyz")]
    false Omitted.default
    (BlockReason.entry_too_large "i" "n" .custom .path "b" 3 2) rfl

/-- Helper: extending a header map with an empty map changes nothing. -/
theorem mapExtend_nil (hs : List (String × String)) : mapExtend hs [] = hs := by
  induction hs with
  | nil => rfl
  | cons hd tl ih => simp_all [mapExtend, List.filter]

/-- C3, counterexample: custom and challenge block actions both materialize
as `ActionType::Block` actions of equal priority, so `merge_decisions`
cannot prefer the custom one: with a challenge-fallback block decision and
a custom block decision, whichever comes first is kept — contradicting a
strict priority order with Custom above Challenge, under which the custom
action would be kept in both orders. -/
theorem merge_decisions_c3_counterexample :
    (merge_decisions dExChallenge dExCustom).maction = dExChallenge.maction ∧
    (merge_decisions dExCustom dExChallenge).maction = dExCustom.maction ∧
    dExChallenge.maction ≠ dExCustom.maction ∧
    actCustom.atype.priority = Action.default.atype.priority := by
  refine ⟨by decide, by decide, by decide, by decide⟩

/-- C3 (corrected): `merge_decisions` keeps the action of the
higher-priority input under the `ActionType` priorities
Skip(9) > Block(6) > Monitor(1) > no action, with `d1` winning ties
(custom and challenge actions are both of type Block and therefore tie);
when the kept action is of type Monitor the headers of the two actions are
unioned into it; and the merged block-reason list length always equals the
sum of the two inputs' reason-list lengths, regardless of which decision
is kept. -/
theorem merge_decisions_spec :
    (∀ d1 d2 : Decision,
      (merge_decisions d1 d2).reasons.length
        = d1.reasons.length + d2.reasons.length) ∧
    (∀ (d1 d2 : Decision) (a1 a2 : Action),
      d1.maction = some a1 → d2.maction = some a2 →
      a2.atype.priority ≤ a1.atype.priority → a1.atype ≠ .monitor →
      merge_decisions d1 d2 = ⟨some a1, d1.reasons ++ d2.reasons⟩) ∧
    (∀ (d1 d2 : Decision) (a1 a2 : Action),
      d1.maction = some a1 → d2.maction = some a2 →
      a1.atype.priority < a2.atype.priority → a2.atype ≠ .monitor →
      merge_decisions d1 d2 = ⟨some a2, d2.reasons ++ d1.reasons⟩) ∧
    (∀ (d1 d2 : Decision) (a1 a2 : Action),
      d1.maction = some a1 → d2.maction = some a2 →
      a1.atype = .monitor → a2.atype = .monitor →
      merge_decisions d1 d2
        = ⟨some { a1 with headers :=
            match a1.headers with
            | some hs => some (mapExtend hs (a2.headers.getD []))
            | none => a2.headers },
           d1.reasons ++ d2.reasons⟩) ∧
    (∀ (d1 d2 : Decision) (a2 : Action),
      d1.maction = none → d2.maction = some a2 →
      merge_decisions d1 d2 = ⟨some a2, d2.reasons ++ d1.reasons⟩) ∧
    (∀ d1 d2 : Decision,
      d2.maction = none →
      (merge_decisions d1 d2).maction = d1.maction ∧
      (merge_decisions d1 d2).reasons = d1.reasons ++ d2.reasons) := by
  refine ⟨?_, ?_, ?_, ?_, ?_, ?_⟩
  · -- reason counts always add up
    intro d1 d2
    rcases d1 with ⟨ma1, r1⟩
    rcases d2 with ⟨ma2, r2⟩
    cases ma1 <;> cases ma2 <;>
      simp [merge_decisions] <;> split_ifs <;>
      simp [Nat.add_comm] <;>
      (first
        | rfl
        | (split_ifs <;> simp [Nat.add_comm]))
  · -- d1 has the higher (or equal) priority and is not Monitor
    intro d1 d2 a1 a2 h1 h2 hp hm
    rcases d1 with ⟨ma1, r1⟩
    rcases d2 with ⟨ma2, r2⟩
    simp only at h1 h2
    subst h1; subst h2
    simp [merge_decisions, hp, hm]
  · -- d2 has the strictly higher priority and is not Monitor
    intro d1 d2 a1 a2 h1 h2 hp hm
    rcases d1 with ⟨ma1, r1⟩
    rcases d2 with ⟨ma2, r2⟩
    simp only at h1 h2
    subst h1; subst h2
    have hnp : ¬ a2.atype.priority ≤ a1.atype.priority := Nat.not_le_of_lt hp
    simp [merge_decisions, hnp, hm]
  · -- Monitor/Monitor tie: d1 kept with unioned headers
    intro d1 d2 a1 a2 h1 h2 hm1 hm2
    rcases d1 with ⟨ma1, r1⟩
    rcases d2 with ⟨ma2, r2⟩
    simp only at h1 h2
    subst h1; subst h2
    simp [merge_decisions, hm1, hm2]
  · -- d1 has no action: d2 is kept unchanged
    intro d1 d2 a2 h1 h2
    rcases d1 with ⟨ma1, r1⟩
    rcases d2 with ⟨ma2, r2⟩
    simp only at h1 h2
    subst h1; subst h2
    rcases a2 with ⟨at2, bm2, st2, hd2, ct2, et2⟩
    by_cases hm : at2 = .monitor
    · subst hm
      cases hd2 <;> simp [merge_decisions, mapExtend_nil]
    · simp [merge_decisions, hm]
  · -- d2 has no action: d1 is kept
    intro d1 d2 h2
    rcases d1 with ⟨ma1, r1⟩
    rcases d2 with ⟨ma2, r2⟩
    simp only at h2
    subst h2
    cases ma1 with
    | none => simp [merge_decisions]
    | some a1 =>
      rcases a1 with ⟨at1, bm1, st1, hd1, ct1, et1⟩
      by_cases hm : at1 = .monitor
      · subst hm
        cases hd1 <;> simp [merge_decisions, mapExtend_nil]
      · simp [merge_decisions, hm]

/-- C3 witness: merging a custom block decision with a monitor decision
keeps the custom action and concatenates the reasons. -/
theorem merge_decisions_spec_witness :
    merge_decisions dExCustom dExMonitor
      = ⟨some actCustom, dExCustom.reasons ++ dExMonitor.reasons⟩ :=
  merge_decisions_spec.2.1 dExCustom dExMonitor actCustom actMonitor rfl rfl
    (by decide) (by decide)

end Curiefense
